import Mathlib

/-!
MenuAI menu-analysis pipeline: verification development

Shallow embedding of the `/api/analyze-menu` pipeline of `server.js`:
batch-size policy, menu-image validation, per-image dish extraction
(JSON normalization, filtering, placeholder fallback, page tagging),
and enrichment (pronunciations and allergens) with its merge step.

The Inference Gateway (OpenAI chat completion call) is modelled as an
environment-supplied outcome per call: either a transport failure
(the promise rejects) or a reply whose free-form text is abstracted by
the result of `JSON.parse` after code-fence stripping (`none` when the
text is not valid JSON).  JSON numbers are modelled as integers; no
claim depends on float formatting.
-/

/-- A parsed JSON value (the result of a successful `JSON.parse`). -/
inductive Jval where
  | jnull : Jval
  | jbool (b : Bool) : Jval
  | jnum (n : Int) : Jval
  | jstr (s : String) : Jval
  | jarr (elems : List Jval) : Jval
  | jobj (fields : List (String × Jval)) : Jval

/-- JavaScript truthiness of a JSON value (`null`, `false`, `0`, `""` are falsy). -/
def truthy : Jval → Bool
  | .jnull => false
  | .jbool b => b
  | .jnum n => n != 0
  | .jstr s => s != ""
  | .jarr _ => true
  | .jobj _ => true

/-- JavaScript test `typeof v === "object"` for a JSON value (true for `null`,
arrays and objects). -/
def isObjectType : Jval → Bool
  | .jnull => true
  | .jarr _ => true
  | .jobj _ => true
  | _ => false

/-- Lookup of a key in the field list of a JSON object; the last binding wins,
matching `JSON.parse` duplicate-key semantics. -/
def lookupLast : List (String × Jval) → String → Option Jval
  | [], _ => none
  | (k, v) :: rest, key =>
    match lookupLast rest key with
    | some w => some w
    | none => if k == key then some v else none

/-- JavaScript property access `v[key]` on a JSON value: a key lookup on
objects, `undefined` (here `none`) on every other value.  Access on `null`
(which throws in JavaScript) is handled separately at each call site. -/
def jprop : Jval → String → Option Jval
  | .jobj fs, key => lookupLast fs key
  | _, _ => none

/-- JavaScript test `typeof x === "string"` for the (possibly `undefined`)
result of a property access. -/
def isStringVal : Option Jval → Bool
  | some (.jstr _) => true
  | _ => false

mutual
/-- The JavaScript `String(v)` coercion of a JSON value. -/
def jsToString : Jval → String
  | .jnull => "null"
  | .jbool b => cond b "true" "false"
  | .jnum n => toString n
  | .jstr s => s
  | .jobj _ => "[object Object]"
  | .jarr xs => jsArrJoin xs

/-- `Array.prototype.toString`: elements joined by commas, `null` elements
rendered as the empty string. -/
def jsArrJoin : List Jval → String
  | [] => ""
  | [.jnull] => ""
  | [x] => jsToString x
  | .jnull :: y :: ys => "," ++ jsArrJoin (y :: ys)
  | x :: y :: ys => jsToString x ++ "," ++ jsArrJoin (y :: ys)
end

/-- The dish filter of `extractDishesFromImage` (server.js lines 391-397):
`dish && typeof dish.original_name === "string" &&
typeof dish.simple_description === "string" &&
dish.nutrition && typeof dish.nutrition === "object"`. -/
def dishFilter (dish : Jval) : Bool :=
  truthy dish &&
  isStringVal (jprop dish "original_name") &&
  isStringVal (jprop dish "simple_description") &&
  (match jprop dish "nutrition" with
   | some n => truthy n && isObjectType n
   | none => false)

/-- The typed projection of an extracted dish element: the fields the
pipeline reads from each surviving array element.  (The server keeps the
raw JavaScript object; we record the fields every later stage consumes.) -/
structure BaseDish where
  original_name : String
  simple_description : String
  nutrition : Jval

/-- Project a filtered JSON element to its consumed fields.  The default
branches are unreachable on elements that passed `dishFilter`. -/
def projDish (dish : Jval) : BaseDish where
  original_name :=
    match jprop dish "original_name" with
    | some (.jstr s) => s
    | _ => ""
  simple_description :=
    match jprop dish "simple_description" with
    | some (.jstr s) => s
    | _ => ""
  nutrition := (jprop dish "nutrition").getD .jnull

/-- Outcome of one Inference Gateway call, as the pipeline observes it:
`failure` when the call rejects (transport/service error), otherwise the
reply text abstracted by its JSON parse result after code-fence
stripping (`none` = `JSON.parse` threw). -/
inductive GatewayOutcome where
  | failure : GatewayOutcome
  | reply (parsed : Option Jval) : GatewayOutcome

/-- The fallback placeholder dish returned when the extraction reply cannot
be parsed as a JSON array (server.js lines 406-415). -/
def menuItemPlaceholder : BaseDish where
  original_name := "Menu Item"
  simple_description := "Unable to extract dish details from this image section"
  nutrition := .jobj
    [("calories", .jstr "Medium"), ("sugar", .jstr "Low"),
     ("fat", .jstr "Medium"), ("greens", .jstr "Low")]

/-- `extractDishesFromImage` (server.js lines 321-422): a transport failure
rethrows; a reply that does not parse to a JSON array yields the single
placeholder dish; a parsed array is filtered by `dishFilter`. -/
def extractDishesFromImage : GatewayOutcome → Except String (List BaseDish)
  | .failure => .error "OpenAI processing failed"
  | .reply none => .ok [menuItemPlaceholder]
  | .reply (some v) =>
    match v with
    | .jarr dishes => .ok ((dishes.filter dishFilter).map projDish)
    | _ => .ok [menuItemPlaceholder]

/-- JavaScript `String.prototype.trim()`: strip leading and trailing
whitespace.  (Implemented over the character list so that it reduces in
the kernel; `Char.isWhitespace` covers the whitespace the code meets.) -/
def jsTrim (s : String) : String :=
  ⟨(((s.data.dropWhile Char.isWhitespace).reverse).dropWhile Char.isWhitespace).reverse⟩

/-- JavaScript `String.prototype.toLowerCase()` restricted to ASCII, the
only case folding the pipeline exercises (the comparison target is the
ASCII word "yes"). -/
def jsToLowerCase (s : String) : String :=
  ⟨s.data.map (fun c => if 65 ≤ c.toNat ∧ c.toNat ≤ 90 then Char.ofNat (c.toNat + 32) else c)⟩

/-- Outcome of one menu-classification call in `validateMenuImages`:
`failure` when the call rejects, otherwise the optional-chained
`choices[0]?.message?.content` (absent fields give `none`). -/
inductive ValidationOutcome where
  | failure : ValidationOutcome
  | reply (content : Option String) : ValidationOutcome
deriving DecidableEq

/-- Whether the reply of the classifier counts as affirmative:
`content?.trim().toLowerCase() === "yes"` (server.js lines 302-305). -/
def isAffirmative : ValidationOutcome → Bool
  | .failure => false
  | .reply none => false
  | .reply (some s) => jsToLowerCase (jsTrim s) == "yes"

/-- `validateMenuImages` (server.js lines 265-318) with call instrumentation:
iterate the images in order, returning `true` on the first affirmative
answer; an error from the call itself is caught around the whole loop and
yields `true` (fail-open).  The second component is the number of
classification calls issued. -/
def validateMenuImagesGo : List ValidationOutcome → Bool × Nat
  | [] => (false, 0)
  | .failure :: _ => (true, 1)
  | .reply a :: rest =>
    if isAffirmative (.reply a) then (true, 1)
    else
      let r := validateMenuImagesGo rest
      (r.1, r.2 + 1)

/-- The boolean result of `validateMenuImages`. -/
def validateMenuImages (os : List ValidationOutcome) : Bool :=
  (validateMenuImagesGo os).1

/-- JavaScript object update `m[k] = v` on an object represented as an
ordered association list with unique keys: an existing key keeps its
position and gets the new value, a new key is appended. -/
def objInsert (m : List (String × String)) (k v : String) : List (String × String) :=
  if m.any (fun p => p.1 == k) then m.map (fun p => if p.1 == k then (p.1, v) else p)
  else m ++ [(k, v)]

/-- JavaScript property read `m[k]` on such an object. -/
def objGet (m : List (String × String)) (k : String) : Option String :=
  (m.find? (fun p => p.1 == k)).map (·.2)

/-- The identity fallback map of `getPronunciationsForNames`: each name
mapped to itself. -/
def identityMap (names : List String) : List (String × String) :=
  names.foldl (fun m n => objInsert m n n) []

/-- The fill loop of `getPronunciationsForNames`:
`filled[n] = String(map[n] || n)` for every requested name in order. -/
def pronFill (m : Jval) (names : List String) : List (String × String) :=
  names.foldl
    (fun acc n =>
      objInsert acc n
        (match jprop m n with
         | some w => if truthy w then jsToString w else n
         | none => n)) []

/-- `getPronunciationsForNames` (server.js lines 425-455).  On a transport
failure the catch block returns the identity map.  On a reply, the parsed
value (or `{}` on parse failure) is indexed per name; indexing `null`
throws, which the outer catch also turns into the identity map; otherwise
the fill loop runs. -/
def getPronunciationsForNames (names : List String) (resp : GatewayOutcome) :
    List (String × String) :=
  match resp with
  | .failure => identityMap names
  | .reply parsed =>
    match parsed.getD (.jobj []) with
    | .jnull => identityMap names
    | m => pronFill m names

/-- The input normalization of `getAllergensForItems` (server.js lines
460-465): trim name and description, drop items whose trimmed name is
empty. -/
def normalizedItems (items : List (String × String)) : List (String × String) :=
  (items.map (fun it => (jsTrim it.1, jsTrim it.2))).filter (fun it => it.1 != "")

/-- The fill loop of `getAllergensForItems`:
`result[it.name] = String(map[it.name] or empty).trim()` per item in order. -/
def allergFill (m : Jval) (normalized : List (String × String)) : List (String × String) :=
  normalized.foldl
    (fun acc it =>
      objInsert acc it.1
        (jsTrim
          (match jprop m it.1 with
           | some w => if truthy w then jsToString w else ""
           | none => ""))) []

/-- `getAllergensForItems` (server.js lines 458-496).  An empty normalized
list short-circuits to `{}` before any call.  A transport failure is
caught and returns `{}` (not a total map).  On a reply, the parsed value
(or `{}` on parse failure) is indexed per item; indexing `null` throws
into the outer catch, returning `{}`; otherwise the fill loop runs. -/
def getAllergensForItems (items : List (String × String)) (resp : GatewayOutcome) :
    List (String × String) :=
  let normalized := normalizedItems items
  if normalized.length = 0 then []
  else
    match resp with
    | .failure => []
    | .reply parsed =>
      match parsed.getD (.jobj []) with
      | .jnull => []
      | m => allergFill m normalized

/-- A dish record as assembled by the orchestrator.  `pronunciation` and
`allergens` are `none` until the enrichment merge assigns them (the
serialized response simply omits absent fields). -/
structure DishRecord where
  original_name : String
  simple_description : String
  nutrition : Jval
  page : Nat
  pronunciation : Option String
  allergens : Option String

/-- Tag an extracted dish with its 1-based source page
(`{...d, page: i + 1}`, server.js lines 177-180). -/
def mkRecord (b : BaseDish) (page : Nat) : DishRecord where
  original_name := b.original_name
  simple_description := b.simple_description
  nutrition := b.nutrition
  page := page
  pronunciation := none
  allergens := none

/-- The dishes one image contributes before page tagging: a caught
extraction error contributes nothing (server.js lines 183-186). -/
def baseDishesOf (o : GatewayOutcome) : List BaseDish :=
  match extractDishesFromImage o with
  | .error _ => []
  | .ok ds => ds

/-- The extraction loop (server.js lines 170-187) started at 0-based image
index `k`: the surviving dishes of each image are tagged with page `k + 1` and
appended in order; a failing image contributes zero records and the loop
continues. -/
def extractLoopFrom (k : Nat) : List GatewayOutcome → List DishRecord
  | [] => []
  | o :: rest => (baseDishesOf o).map (fun b => mkRecord b (k + 1)) ++ extractLoopFrom (k + 1) rest

/-- All records accumulated by the extraction loop, in order. -/
def extractLoop (imgs : List GatewayOutcome) : List DishRecord :=
  extractLoopFrom 0 imgs

/-- The argument of the pronunciation request (server.js line 204):
`Array.from(new Set(allDishes.map(d => d && d.original_name).filter(Boolean)))`
— first-occurrence order-preserving deduplication of the non-empty names. -/
def pronunciationRequestNames (allDishes : List DishRecord) : List String :=
  ((allDishes.map (fun d => d.original_name)).filter (fun s => s != "")).foldl
    (fun acc x => if x ∈ acc then acc else acc ++ [x]) []

/-- The argument of the allergens request (server.js line 210): the full
record list mapped to (name, description) pairs, duplicates included. -/
def allergensRequestItems (allDishes : List DishRecord) : List (String × String) :=
  allDishes.map (fun d => (d.original_name, d.simple_description))

/-- The enrichment merge applied to one record (server.js lines 213-217):
`d.pronunciation = (pronunciations && pronunciations[d.original_name]) || d.original_name`,
and `d.allergens` is set to `a.trim()` when `a = allergens[d.original_name]`
is a string with non-empty trim, and to the empty string otherwise. -/
def mergeEnrichment (pronunciations allergens : List (String × String))
    (d : DishRecord) : DishRecord :=
  { d with
    pronunciation := some
      (match objGet pronunciations d.original_name with
       | some s => if s != "" then s else d.original_name
       | none => d.original_name)
    allergens := some
      (match objGet allergens d.original_name with
       | some s => if jsTrim s != "" then jsTrim s else ""
       | none => "") }

/-- The enrichment stage (server.js lines 202-217): both maps are requested
only when the deduplicated name set is non-empty, then every record is
merged against them. -/
def enrichDishes (pronResp allergResp : GatewayOutcome)
    (allDishes : List DishRecord) : List DishRecord :=
  let uniqueNames := pronunciationRequestNames allDishes
  let pronunciations :=
    if uniqueNames.length = 0 then []
    else getPronunciationsForNames uniqueNames pronResp
  let allergens :=
    if uniqueNames.length = 0 then []
    else getAllergensForItems (allergensRequestItems allDishes) allergResp
  allDishes.map (mergeEnrichment pronunciations allergens)

/-- Number of Inference Gateway calls the enrichment stage issues: both
calls start only when the deduplicated name set is non-empty, and
`getAllergensForItems` returns before its call when its normalized item
list is empty. -/
def enrichmentCallCount (allDishes : List DishRecord) : Nat :=
  if (pronunciationRequestNames allDishes).length = 0 then 0
  else 1 + (if (normalizedItems (allergensRequestItems allDishes)).length = 0 then 0 else 1)

/-- Per-image environment: the outcome of its classification call and of
its extraction call. -/
structure ImageEnv where
  validation : ValidationOutcome
  extraction : GatewayOutcome

/-- Environment of one `/api/analyze-menu` request: the request fields and
the outcome of every external call the pipeline might issue. -/
structure Env where
  images : List ImageEnv
  skip_enrichment : Bool
  pronunciationResp : GatewayOutcome
  allergensResp : GatewayOutcome

/-- The user-facing outcome of the pipeline. -/
inductive Response where
  | sizeError (msg : String) : Response
  | notMenuImages : Response
  | noDishes : Response
  | ok (dishes : List DishRecord) : Response

/-- HTTP status of each outcome (server.js lines 140-150, 160-164, 189-193,
199, 223). -/
def statusOf : Response → Nat
  | .sizeError _ => 400
  | .notMenuImages => 400
  | .noDishes => 422
  | .ok _ => 200

/-- Gateway calls issued during one request, by stage. -/
structure RunStats where
  validationCalls : Nat
  extractionCalls : Nat
  enrichmentCalls : Nat

/-- The `/api/analyze-menu` orchestrator (server.js lines 136-232):
batch-size policy, validation, sequential extraction with page tagging,
the no-dishes check, the skip-enrichment early return, and enrichment. -/
def analyzeMenu (env : Env) : Response × RunStats :=
  if env.images.length = 0 then
    (.sizeError "No images provided. Please upload at least one menu image.", ⟨0, 0, 0⟩)
  else if env.images.length > 5 then
    (.sizeError "Too many images. Maximum 5 images allowed.", ⟨0, 0, 0⟩)
  else
    let v := validateMenuImagesGo (env.images.map (fun i => i.validation))
    if v.1 = false then (.notMenuImages, ⟨v.2, 0, 0⟩)
    else
      let allDishes := extractLoop (env.images.map (fun i => i.extraction))
      if allDishes.length = 0 then (.noDishes, ⟨v.2, env.images.length, 0⟩)
      else if env.skip_enrichment = true then (.ok allDishes, ⟨v.2, env.images.length, 0⟩)
      else
        (.ok (enrichDishes env.pronunciationResp env.allergensResp allDishes),
         ⟨v.2, env.images.length, enrichmentCallCount allDishes⟩)

/-- The dishes of a successful response (empty for error responses). -/
def okDishes : Response → List DishRecord
  | .ok ds => ds
  | _ => []

/-- Whether an extraction reply is unparsable in the sense of the spec:
`JSON.parse` failed, or the top-level value is not an array (in the code
both paths end in the same catch block). -/
def unparsableTopLevel : Option Jval → Bool
  | none => true
  | some (.jarr _) => false
  | some _ => true

/-- Modelled from the words of the spec, for comparison with the code
(the code does not enforce this): a nutrition value with exactly three
fields `calories`, `sugar`, `unhealthy_fat`, each a level in
{High, Medium, Low}. -/
def specNutritionWellFormed (v : Jval) : Bool :=
  match v with
  | .jobj fs =>
    fs.length == 3 &&
    (match lookupLast fs "calories" with
     | some (.jstr s) => s == "High" || s == "Medium" || s == "Low"
     | _ => false) &&
    (match lookupLast fs "sugar" with
     | some (.jstr s) => s == "High" || s == "Medium" || s == "Low"
     | _ => false) &&
    (match lookupLast fs "unhealthy_fat" with
     | some (.jstr s) => s == "High" || s == "Medium" || s == "Low"
     | _ => false)
  | _ => false

/-- Fixture: a well-formed extracted dish element, as the prompt requests it. -/
def ramenJson : Jval := .jobj
  [("original_name", .jstr "Tonkotsu Ramen"),
   ("simple_description",
    .jstr "This is a soup. Rich pork broth with noodles. Hearty and filling. Top ingredients: pork, noodles, egg"),
   ("nutrition", .jobj
     [("calories", .jstr "High"), ("sugar", .jstr "Low"), ("unhealthy_fat", .jstr "High")])]

/-- Fixture: a degenerate dish element that still passes the filter of the
code (empty strings are strings, an empty object is a truthy object). -/
def emptyNameDishJson : Jval := .jobj
  [("original_name", .jstr ""), ("simple_description", .jstr ""), ("nutrition", .jobj [])]

/-- Fixture: a one-image batch whose extraction reply parses to an array
holding only the degenerate element, with enrichment skipped. -/
def envC1 : Env where
  images := [⟨.reply (some "YES"), .reply (some (.jarr [emptyNameDishJson]))⟩]
  skip_enrichment := true
  pronunciationResp := .reply none
  allergensResp := .reply none

/-- Fixture: a one-image batch extracting one well-formed dish, with
enrichment skipped by the client. -/
def envC3 : Env where
  images := [⟨.reply (some "YES"), .reply (some (.jarr [ramenJson]))⟩]
  skip_enrichment := true
  pronunciationResp := .reply none
  allergensResp := .reply none

/-- Fixture: two images both extracting the same dish name, full
enrichment with parsable maps. -/
def envC9 : Env where
  images := [⟨.reply (some "YES"), .reply (some (.jarr [ramenJson]))⟩,
             ⟨.reply (some "no"), .reply (some (.jarr [ramenJson]))⟩]
  skip_enrichment := false
  pronunciationResp := .reply (some (.jobj [("Tonkotsu Ramen", .jstr "ton-KOH-tsoo RAH-men")]))
  allergensResp := .reply (some (.jobj [("Tonkotsu Ramen", .jstr " wheat, egg, soy ")]))

/-- Fixture: two records sharing one name, for the request-shape claims. -/
def dupNameDishes : List DishRecord :=
  [⟨"A", "d1", .jobj [], 1, none, none⟩, ⟨"A", "d2", .jobj [], 2, none, none⟩]

/-- Fixture: a sample record for witnesses. -/
def sampleRecord : DishRecord := ⟨"A", "d1", .jobj [], 1, none, none⟩

/-- Fixture: an empty batch. -/
def envNoImages : Env := ⟨[], false, .failure, .failure⟩

/-- Fixture: a six-image batch. -/
def envSixImages : Env :=
  ⟨List.replicate 6 ⟨.reply (some "YES"), .reply none⟩, false, .failure, .failure⟩

/-- Fixture: a one-image batch whose extraction reply is parseable JSON but
not an array. -/
def envC2 : Env where
  images := [⟨.reply (some "YES"), .reply (some (.jstr "no dishes here"))⟩]
  skip_enrichment := true
  pronunciationResp := .failure
  allergensResp := .failure

/-- Fixture: a two-image batch whose first extraction call fails at the
transport level while the second extracts a dish. -/
def envC7 : Env where
  images := [⟨.reply (some "YES"), .failure⟩,
             ⟨.reply none, .reply (some (.jarr [ramenJson]))⟩]
  skip_enrichment := true
  pronunciationResp := .failure
  allergensResp := .failure

/-- Fixture: a one-image batch whose only extraction call fails at the
transport level, so no dishes are accumulated. -/
def envAllFail : Env where
  images := [⟨.reply (some "YES"), .failure⟩]
  skip_enrichment := false
  pronunciationResp := .failure
  allergensResp := .failure

/-!
Helper lemmas
-/

theorem mkRecord_page (b : BaseDish) (k : Nat) : (mkRecord b k).page = k := rfl

theorem mkRecord_pronunciation (b : BaseDish) (k : Nat) :
    (mkRecord b k).pronunciation = none := rfl

theorem mkRecord_allergens (b : BaseDish) (k : Nat) : (mkRecord b k).allergens = none := rfl

theorem baseDishesOf_failure : baseDishesOf .failure = [] := rfl

theorem extractLoopFrom_nil (k : Nat) : extractLoopFrom k [] = [] := rfl

theorem extractLoopFrom_cons (k : Nat) (o : GatewayOutcome) (rest : List GatewayOutcome) :
    extractLoopFrom k (o :: rest) =
      (baseDishesOf o).map (fun b => mkRecord b (k + 1)) ++ extractLoopFrom (k + 1) rest := rfl

theorem extractLoopFrom_append (k : Nat) (xs ys : List GatewayOutcome) :
    extractLoopFrom k (xs ++ ys) = extractLoopFrom k xs ++ extractLoopFrom (k + xs.length) ys := by
  induction xs generalizing k with
  | nil => simp [extractLoopFrom]
  | cons o rest ih =>
    simp only [List.cons_append, extractLoopFrom_cons, ih (k + 1), List.append_assoc,
      List.length_cons]
    have h : k + 1 + rest.length = k + (rest.length + 1) := by omega
    rw [h]

theorem page_mem_extractLoopFrom (k : Nat) (imgs : List GatewayOutcome) (d : DishRecord)
    (hd : d ∈ extractLoopFrom k imgs) : k + 1 ≤ d.page ∧ d.page ≤ k + imgs.length := by
  induction imgs generalizing k with
  | nil => simp [extractLoopFrom] at hd
  | cons o rest ih =>
    rw [extractLoopFrom_cons] at hd
    rcases List.mem_append.mp hd with h | h
    · rcases List.mem_map.mp h with ⟨b, _, rfl⟩
      simp only [mkRecord_page, List.length_cons]
      omega
    · have := ih (k + 1) h
      simp only [List.length_cons]
      omega

theorem fields_none_mem_extractLoopFrom (k : Nat) (imgs : List GatewayOutcome) (d : DishRecord)
    (hd : d ∈ extractLoopFrom k imgs) : d.pronunciation = none ∧ d.allergens = none := by
  induction imgs generalizing k with
  | nil => simp [extractLoopFrom] at hd
  | cons o rest ih =>
    rw [extractLoopFrom_cons] at hd
    rcases List.mem_append.mp hd with h | h
    · rcases List.mem_map.mp h with ⟨b, _, rfl⟩
      exact ⟨rfl, rfl⟩
    · exact ih (k + 1) h

theorem pairwise_page_extractLoopFrom (k : Nat) (imgs : List GatewayOutcome) :
    (extractLoopFrom k imgs).Pairwise (fun a b => a.page ≤ b.page) := by
  induction imgs generalizing k with
  | nil => simp [extractLoopFrom]
  | cons o rest ih =>
    rw [extractLoopFrom_cons]
    refine List.pairwise_append.mpr ⟨?_, ih (k + 1), ?_⟩
    · refine List.Pairwise.map _ (fun a b h => h) ?_
      refine List.pairwise_iff_forall_sublist.mpr ?_
      intro a b _
      simp [mkRecord_page]
    · intro a ha b hb
      rcases List.mem_map.mp ha with ⟨c, _, rfl⟩
      have := (page_mem_extractLoopFrom (k + 1) rest b hb).1
      simp only [mkRecord_page]
      omega

theorem nutrition_ok_of_dishFilter (d : Jval) (h : dishFilter d = true) :
    (truthy (projDish d).nutrition && isObjectType (projDish d).nutrition) = true := by
  unfold dishFilter at h
  simp only [Bool.and_eq_true] at h
  rcases h with ⟨⟨⟨_, _⟩, _⟩, hn⟩
  cases hjp : jprop d "nutrition" with
  | none => rw [hjp] at hn; exact absurd hn (by simp)
  | some n =>
    rw [hjp] at hn
    show (truthy ((jprop d "nutrition").getD .jnull) &&
      isObjectType ((jprop d "nutrition").getD .jnull)) = true
    rw [hjp]
    exact hn

theorem nutrition_ok_baseDishesOf (o : GatewayOutcome) (b : BaseDish)
    (hb : b ∈ baseDishesOf o) : (truthy b.nutrition && isObjectType b.nutrition) = true := by
  unfold baseDishesOf extractDishesFromImage at hb
  cases o with
  | failure => simp at hb
  | reply p =>
    cases p with
    | none =>
      simp only [List.mem_singleton] at hb
      subst hb
      rfl
    | some v =>
      cases v with
      | jarr xs =>
        simp only [List.mem_map] at hb
        rcases hb with ⟨d, hd, rfl⟩
        exact nutrition_ok_of_dishFilter d (List.of_mem_filter hd)
      | jnull => simp only [List.mem_singleton] at hb; subst hb; rfl
      | jbool b' => simp only [List.mem_singleton] at hb; subst hb; rfl
      | jnum n => simp only [List.mem_singleton] at hb; subst hb; rfl
      | jstr s => simp only [List.mem_singleton] at hb; subst hb; rfl
      | jobj fs => simp only [List.mem_singleton] at hb; subst hb; rfl

theorem nutrition_ok_extractLoopFrom (k : Nat) (imgs : List GatewayOutcome) (d : DishRecord)
    (hd : d ∈ extractLoopFrom k imgs) :
    (truthy d.nutrition && isObjectType d.nutrition) = true := by
  induction imgs generalizing k with
  | nil => simp [extractLoopFrom] at hd
  | cons o rest ih =>
    rw [extractLoopFrom_cons] at hd
    rcases List.mem_append.mp hd with h | h
    · rcases List.mem_map.mp h with ⟨b, hb, rfl⟩
      exact nutrition_ok_baseDishesOf o b hb
    · exact ih (k + 1) h

theorem extractLoopFrom_filter_page (k : Nat) (pre post : List GatewayOutcome)
    (o : GatewayOutcome) :
    (extractLoopFrom k (pre ++ o :: post)).filter (fun d => d.page == k + pre.length + 1) =
      (baseDishesOf o).map (fun b => mkRecord b (k + pre.length + 1)) := by
  rw [extractLoopFrom_append, extractLoopFrom_cons, List.filter_append, List.filter_append]
  have h1 : (extractLoopFrom k pre).filter (fun d => d.page == k + pre.length + 1) = [] := by
    rw [List.filter_eq_nil_iff]
    intro d hd
    have := (page_mem_extractLoopFrom k pre d hd).2
    simp only [beq_iff_eq]
    omega
  have h2 : ((baseDishesOf o).map (fun b => mkRecord b (k + pre.length + 1))).filter
      (fun d => d.page == k + pre.length + 1) =
      (baseDishesOf o).map (fun b => mkRecord b (k + pre.length + 1)) := by
    rw [List.filter_eq_self]
    intro d hd
    rcases List.mem_map.mp hd with ⟨b, _, rfl⟩
    simp [mkRecord_page]
  have h3 : (extractLoopFrom (k + pre.length + 1) post).filter
      (fun d => d.page == k + pre.length + 1) = [] := by
    rw [List.filter_eq_nil_iff]
    intro d hd
    have := (page_mem_extractLoopFrom (k + pre.length + 1) post d hd).1
    simp only [beq_iff_eq]
    omega
  rw [h1, h2, h3, List.nil_append, List.append_nil]

theorem extractLoopFrom_ne_nil_of_contrib (k : Nat) (imgs : List GatewayOutcome)
    (o : GatewayOutcome) (ho : o ∈ imgs) (hne : baseDishesOf o ≠ []) :
    extractLoopFrom k imgs ≠ [] := by
  induction imgs generalizing k with
  | nil => simp at ho
  | cons x rest ih =>
    rw [extractLoopFrom_cons]
    rcases List.mem_cons.mp ho with rfl | h
    · intro hcontra
      rcases List.append_eq_nil.mp hcontra with ⟨hmap, _⟩
      exact hne (List.map_eq_nil_iff.mp hmap)
    · intro hcontra
      rcases List.append_eq_nil.mp hcontra with ⟨_, hrest⟩
      exact ih (k + 1) h hrest

theorem objGet_nil (n : String) : objGet [] n = none := rfl

theorem objGet_map_set_ne (rest : List (String × String)) (k v n : String) (h : n ≠ k) :
    objGet (rest.map (fun p => if p.1 == k then (p.1, v) else p)) n = objGet rest n := by
  induction rest with
  | nil => rfl
  | cons q t ih =>
    simp only [List.map_cons, objGet, List.find?_cons]
    have hk : (if q.1 == k then (q.1, v) else q).1 = q.1 := by split <;> rfl
    rw [hk]
    by_cases hq : q.1 == n
    · simp only [hq]
      have : q.1 = n := by simpa using hq
      have hqk : (q.1 == k) = false := by simp [this, h]
      simp [hqk]
    · simp only [Bool.not_eq_true] at hq
      simp only [hq]
      simpa [objGet] using ih

theorem objInsert_cons_ne (p : String × String) (rest : List (String × String)) (k v : String)
    (h : p.1 ≠ k) : objInsert (p :: rest) k v = p :: objInsert rest k v := by
  unfold objInsert
  have hp : (p.1 == k) = false := by simp [h]
  by_cases ha : rest.any (fun q => q.1 == k)
  · simp [List.any_cons, hp, ha, h]
  · simp only [Bool.not_eq_true] at ha
    simp [List.any_cons, hp, ha]


theorem objGet_cons (p : String × String) (rest : List (String × String)) (n : String) :
    objGet (p :: rest) n = if p.1 == n then some p.2 else objGet rest n := by
  simp only [objGet, List.find?_cons]
  by_cases h : p.1 == n
  · simp [h]
  · simp only [Bool.not_eq_true] at h
    simp [h]

theorem objGet_objInsert (m : List (String × String)) (k v n : String) :
    objGet (objInsert m k v) n = if n = k then some v else objGet m n := by
  induction m with
  | nil =>
    have h0 : objInsert [] k v = [(k, v)] := by unfold objInsert; simp
    rw [h0, objGet_cons]
    by_cases h : n = k
    · simp [h]
    · have hk : (k == n) = false := by simp [Ne.symm h]
      simp [hk, h, objGet_nil]
  | cons p rest ih =>
    by_cases hp : p.1 = k
    · have hany : (p :: rest).any (fun q => q.1 == k) = true := by
        simp [List.any_cons, hp]
      have h1 : objInsert (p :: rest) k v =
          (p.1, v) :: rest.map (fun q => if q.1 == k then (q.1, v) else q) := by
        unfold objInsert
        rw [hany]
        simp only [if_pos rfl, List.map_cons]
        have hpk : (p.1 == k) = true := by simp [hp]
        rw [hpk]
        simp
      rw [h1, objGet_cons]
      by_cases hn : n = k
      · have hc : (p.1 == n) = true := by simp [hp, hn]
        rw [if_pos hc, if_pos hn]
      · have hpn : (p.1 == n) = false := by
          simp only [beq_eq_false_iff_ne, ne_eq]
          rw [hp]; exact Ne.symm hn
        simp only [hpn, if_neg hn]
        rw [objGet_map_set_ne rest k v n hn, objGet_cons]
        simp [hpn]
    · rw [objInsert_cons_ne p rest k v hp, objGet_cons, ih, objGet_cons]
      by_cases hn : n = k
      · have hpn : ¬((p.1 == n) = true) := by
          simp only [beq_iff_eq]
          rw [hn]; exact hp
        rw [if_neg hpn, if_pos hn, if_pos hn]
      · simp [hn]

theorem objGet_foldl_insert {α : Type} (key : α → String) (F : String → String)
    (l : List α) (acc : List (String × String)) (n : String) :
    objGet (l.foldl (fun a x => objInsert a (key x) (F (key x))) acc) n =
      if n ∈ l.map key then some (F n) else objGet acc n := by
  induction l generalizing acc with
  | nil => simp
  | cons x t ih =>
    simp only [List.foldl_cons, List.map_cons, List.mem_cons]
    rw [ih]
    by_cases hm : n ∈ t.map key
    · simp [hm]
    · rw [if_neg hm, objGet_objInsert]
      by_cases he : n = key x
      · simp [he]
      · simp [he, hm]

theorem dedupFoldl_mem (l : List String) (acc : List String) (x : String) :
    (x ∈ l.foldl (fun a y => if y ∈ a then a else a ++ [y]) acc) ↔ x ∈ acc ∨ x ∈ l := by
  induction l generalizing acc with
  | nil => simp
  | cons y t ih =>
    simp only [List.foldl_cons, List.mem_cons]
    by_cases hy : y ∈ acc
    · rw [if_pos hy, ih]
      constructor
      · rintro (h | h)
        · exact Or.inl h
        · exact Or.inr (Or.inr h)
      · rintro (h | rfl | h)
        · exact Or.inl h
        · exact Or.inl hy
        · exact Or.inr h
    · rw [if_neg hy, ih]
      simp only [List.mem_append, List.mem_singleton]
      tauto

theorem dedupFoldl_nodup (l : List String) (acc : List String) (h : acc.Nodup) :
    (l.foldl (fun a y => if y ∈ a then a else a ++ [y]) acc).Nodup := by
  induction l generalizing acc with
  | nil => simpa using h
  | cons y t ih =>
    simp only [List.foldl_cons]
    by_cases hy : y ∈ acc
    · rw [if_pos hy]; exact ih acc h
    · rw [if_neg hy]
      refine ih (acc ++ [y]) ?_
      refine List.Nodup.append h (List.nodup_singleton y) ?_
      intro a ha hb
      rw [List.mem_singleton] at hb
      subst hb
      exact hy ha

theorem pronunciationRequestNames_nodup (ds : List DishRecord) :
    (pronunciationRequestNames ds).Nodup :=
  dedupFoldl_nodup _ [] List.nodup_nil

theorem mem_pronunciationRequestNames (ds : List DishRecord) (n : String) :
    n ∈ pronunciationRequestNames ds ↔
      (n ≠ "" ∧ n ∈ ds.map (fun d => d.original_name)) := by
  unfold pronunciationRequestNames
  rw [dedupFoldl_mem]
  simp only [List.not_mem_nil, false_or, List.mem_filter, bne_iff_ne, ne_eq]
  tauto

theorem mergeEnrichment_original_name (p a : List (String × String)) (d : DishRecord) :
    (mergeEnrichment p a d).original_name = d.original_name := rfl

theorem mergeEnrichment_simple_description (p a : List (String × String)) (d : DishRecord) :
    (mergeEnrichment p a d).simple_description = d.simple_description := rfl

theorem mergeEnrichment_nutrition (p a : List (String × String)) (d : DishRecord) :
    (mergeEnrichment p a d).nutrition = d.nutrition := rfl

theorem mergeEnrichment_page (p a : List (String × String)) (d : DishRecord) :
    (mergeEnrichment p a d).page = d.page := rfl

theorem mergeEnrichment_pronunciation (p a : List (String × String)) (d : DishRecord) :
    (mergeEnrichment p a d).pronunciation = some
      (match objGet p d.original_name with
       | some s => if s != "" then s else d.original_name
       | none => d.original_name) := rfl

theorem mergeEnrichment_allergens (p a : List (String × String)) (d : DishRecord) :
    (mergeEnrichment p a d).allergens = some
      (match objGet a d.original_name with
       | some s => if jsTrim s != "" then jsTrim s else ""
       | none => "") := rfl

theorem enrichDishes_eq_map (pronResp allergResp : GatewayOutcome) (ds : List DishRecord) :
    enrichDishes pronResp allergResp ds =
      ds.map (mergeEnrichment
        (if (pronunciationRequestNames ds).length = 0 then []
         else getPronunciationsForNames (pronunciationRequestNames ds) pronResp)
        (if (pronunciationRequestNames ds).length = 0 then []
         else getAllergensForItems (allergensRequestItems ds) allergResp)) := rfl

theorem validateGo_calls_pos (os : List ValidationOutcome) (h : os ≠ []) :
    1 ≤ (validateMenuImagesGo os).2 := by
  cases os with
  | nil => exact absurd rfl h
  | cons o rest =>
    cases o with
    | failure => simp [validateMenuImagesGo]
    | reply a =>
      simp only [validateMenuImagesGo]
      split
      · simp
      · simp

theorem analyzeMenu_notMenu (env : Env) (h1 : env.images.length ≠ 0)
    (h2 : ¬env.images.length > 5)
    (hv : validateMenuImages (env.images.map (fun i => i.validation)) = false) :
    analyzeMenu env =
      (.notMenuImages, ⟨(validateMenuImagesGo (env.images.map (fun i => i.validation))).2, 0, 0⟩) := by
  unfold analyzeMenu
  rw [if_neg h1, if_neg h2]
  have hv2 : (validateMenuImagesGo (env.images.map (fun i => i.validation))).1 = false := hv
  simp only [if_pos hv2]

theorem analyzeMenu_noDishes (env : Env) (h1 : env.images.length ≠ 0)
    (h2 : ¬env.images.length > 5)
    (hv : validateMenuImages (env.images.map (fun i => i.validation)) = true)
    (hd : (extractLoop (env.images.map (fun i => i.extraction))).length = 0) :
    analyzeMenu env =
      (.noDishes,
       ⟨(validateMenuImagesGo (env.images.map (fun i => i.validation))).2,
        env.images.length, 0⟩) := by
  unfold analyzeMenu
  rw [if_neg h1, if_neg h2]
  have hv' : ¬((validateMenuImagesGo (env.images.map (fun i => i.validation))).1 = false) := by
    rw [show (validateMenuImagesGo (env.images.map (fun i => i.validation))).1 =
      validateMenuImages (env.images.map (fun i => i.validation)) from rfl, hv]
    simp
  simp only [if_neg hv', if_pos hd]

theorem analyzeMenu_skip (env : Env) (h1 : env.images.length ≠ 0)
    (h2 : ¬env.images.length > 5)
    (hv : validateMenuImages (env.images.map (fun i => i.validation)) = true)
    (hd : (extractLoop (env.images.map (fun i => i.extraction))).length ≠ 0)
    (hs : env.skip_enrichment = true) :
    analyzeMenu env =
      (.ok (extractLoop (env.images.map (fun i => i.extraction))),
       ⟨(validateMenuImagesGo (env.images.map (fun i => i.validation))).2,
        env.images.length, 0⟩) := by
  unfold analyzeMenu
  rw [if_neg h1, if_neg h2]
  have hv' : ¬((validateMenuImagesGo (env.images.map (fun i => i.validation))).1 = false) := by
    rw [show (validateMenuImagesGo (env.images.map (fun i => i.validation))).1 =
      validateMenuImages (env.images.map (fun i => i.validation)) from rfl, hv]
    simp
  simp only [if_neg hv', if_neg hd, if_pos hs]

theorem analyzeMenu_enrich (env : Env) (h1 : env.images.length ≠ 0)
    (h2 : ¬env.images.length > 5)
    (hv : validateMenuImages (env.images.map (fun i => i.validation)) = true)
    (hd : (extractLoop (env.images.map (fun i => i.extraction))).length ≠ 0)
    (hs : env.skip_enrichment = false) :
    analyzeMenu env =
      (.ok (enrichDishes env.pronunciationResp env.allergensResp
              (extractLoop (env.images.map (fun i => i.extraction)))),
       ⟨(validateMenuImagesGo (env.images.map (fun i => i.validation))).2,
        env.images.length,
        enrichmentCallCount (extractLoop (env.images.map (fun i => i.extraction)))⟩) := by
  unfold analyzeMenu
  rw [if_neg h1, if_neg h2]
  have hv' : ¬((validateMenuImagesGo (env.images.map (fun i => i.validation))).1 = false) := by
    rw [show (validateMenuImagesGo (env.images.map (fun i => i.validation))).1 =
      validateMenuImages (env.images.map (fun i => i.validation)) from rfl, hv]
    simp
  have hs' : ¬(env.skip_enrichment = true) := by rw [hs]; simp
  simp only [if_neg hv', if_neg hd, if_neg hs']

/-!
Claim theorems
-/

/-- C8: the analyze-menu operation rejects a batch with zero images with a
size-policy error (HTTP 400, no Inference Gateway call issued), rejects a
batch with more than five images likewise, and accepts any batch of one
to five images into the Validating stage (the result is never a
size-policy error and at least one classification call is issued). -/
theorem c8_batch_size_policy (env : Env) :
    (env.images.length = 0 →
      analyzeMenu env =
        (.sizeError "No images provided. Please upload at least one menu image.", ⟨0, 0, 0⟩) ∧
      statusOf (analyzeMenu env).1 = 400)
  ∧ (env.images.length > 5 →
      analyzeMenu env =
        (.sizeError "Too many images. Maximum 5 images allowed.", ⟨0, 0, 0⟩) ∧
      statusOf (analyzeMenu env).1 = 400)
  ∧ (1 ≤ env.images.length → env.images.length ≤ 5 →
      (∀ msg, (analyzeMenu env).1 ≠ .sizeError msg) ∧
      1 ≤ (analyzeMenu env).2.validationCalls) := by
  refine ⟨?_, ?_, ?_⟩
  · intro h
    have he : analyzeMenu env =
        (.sizeError "No images provided. Please upload at least one menu image.", ⟨0, 0, 0⟩) := by
      unfold analyzeMenu
      rw [if_pos h]
    exact ⟨he, by rw [he]; rfl⟩
  · intro h
    have he : analyzeMenu env =
        (.sizeError "Too many images. Maximum 5 images allowed.", ⟨0, 0, 0⟩) := by
      unfold analyzeMenu
      rw [if_neg (by omega), if_pos h]
    exact ⟨he, by rw [he]; rfl⟩
  · intro h1 h2
    have h0 : env.images.length ≠ 0 := by omega
    have h5 : ¬env.images.length > 5 := by omega
    have hne : env.images.map (fun i => i.validation) ≠ [] := by
      intro hc
      have := congrArg List.length hc
      simp only [List.length_map, List.length_nil] at this
      omega
    have hpos := validateGo_calls_pos _ hne
    by_cases hv : validateMenuImages (env.images.map (fun i => i.validation)) = true
    · by_cases hd : (extractLoop (env.images.map (fun i => i.extraction))).length = 0
      · rw [analyzeMenu_noDishes env h0 h5 hv hd]
        exact ⟨fun msg h => Response.noConfusion h, hpos⟩
      · by_cases hs : env.skip_enrichment = true
        · rw [analyzeMenu_skip env h0 h5 hv hd hs]
          exact ⟨fun msg h => Response.noConfusion h, hpos⟩
        · rw [analyzeMenu_enrich env h0 h5 hv hd (by simpa using hs)]
          exact ⟨fun msg h => Response.noConfusion h, hpos⟩
    · have hv' : validateMenuImages (env.images.map (fun i => i.validation)) = false := by
        simpa using hv
      rw [analyzeMenu_notMenu env h0 h5 hv']
      exact ⟨fun msg h => Response.noConfusion h, hpos⟩

/-- Witness for C8 at concrete batches of size 0, 6 and 1. -/
theorem c8_batch_size_policy_witness :
    analyzeMenu envNoImages =
      (.sizeError "No images provided. Please upload at least one menu image.", ⟨0, 0, 0⟩) ∧
    analyzeMenu envSixImages =
      (.sizeError "Too many images. Maximum 5 images allowed.", ⟨0, 0, 0⟩) ∧
    (∀ msg, (analyzeMenu envC3).1 ≠ .sizeError msg) :=
  ⟨((c8_batch_size_policy envNoImages).1 rfl).1,
   ((c8_batch_size_policy envSixImages).2.1 (by decide)).1,
   ((c8_batch_size_policy envC3).2.2 (by decide) (by decide)).1⟩

/-- C6: the Image Validation Stage iterates images in input order; at the
first affirmative answer it returns true having issued exactly the calls
for the preceding images plus one, independent of any later images; when
the classification call itself errors it likewise returns true (fail-open,
the error is absorbed, never propagated — the stage is a total function);
and over a list with no affirmative answer and no error it returns false
after examining every image. -/
theorem c6_validation_policy (pre post : List ValidationOutcome) (o : ValidationOutcome)
    (hpre : ∀ x ∈ pre, x ≠ .failure ∧ isAffirmative x = false) :
    (isAffirmative o = true ∨ o = .failure →
      validateMenuImagesGo (pre ++ o :: post) = (true, pre.length + 1))
  ∧ validateMenuImagesGo pre = (false, pre.length) := by
  induction pre with
  | nil =>
    refine ⟨?_, rfl⟩
    rintro (ha | rfl)
    · cases o with
      | failure => rfl
      | reply a =>
        simp only [List.nil_append, validateMenuImagesGo, if_pos ha, List.length_nil]
    · rfl
  | cons x rest ih =>
    have hx := hpre x (List.mem_cons_self x rest)
    have hrest : ∀ y ∈ rest, y ≠ .failure ∧ isAffirmative y = false :=
      fun y hy => hpre y (List.mem_cons_of_mem x hy)
    obtain ⟨ih1, ih2⟩ := ih hrest
    cases x with
    | failure => exact absurd rfl hx.1
    | reply a =>
      have hna : ¬(isAffirmative (.reply a) = true) := by
        rw [hx.2]; simp
      constructor
      · intro ho
        show validateMenuImagesGo (.reply a :: (rest ++ o :: post)) = _
        simp only [validateMenuImagesGo, if_neg hna, ih1 ho, List.length_cons]
      · show validateMenuImagesGo (.reply a :: rest) = _
        simp only [validateMenuImagesGo, if_neg hna, ih2, List.length_cons]

/-- Witness for C6: an affirmative answer at position three stops the scan
with three calls; an error at position two stops it fail-open with two
calls; a fully negative batch yields false after both calls. -/
theorem c6_validation_policy_witness :
    validateMenuImagesGo
        ([.reply (some "no"), .reply none] ++ .reply (some " YES ") :: [.failure]) = (true, 3) ∧
    validateMenuImagesGo ([.reply (some "no")] ++ .failure :: [.reply (some "yes")]) = (true, 2) ∧
    validateMenuImagesGo [.reply (some "no"), .reply none] = (false, 2) :=
  ⟨(c6_validation_policy [.reply (some "no"), .reply none] [.failure]
      (.reply (some " YES ")) (by decide)).1 (Or.inl (by decide)),
   (c6_validation_policy [.reply (some "no")] [.reply (some "yes")] .failure (by decide)).1
     (Or.inr rfl),
   (c6_validation_policy [.reply (some "no"), .reply none] [] .failure (by decide)).2⟩

/-- C10: on every non-empty record list the enrichment stage returns a
list of the same length and order, leaves original_name,
simple_description, nutrition and page untouched on every record, and
populates only the pronunciation and allergens fields. -/
theorem c10_enrichment_frame (pronResp allergResp : GatewayOutcome)
    (ds : List DishRecord) (_h : ds ≠ []) :
    (enrichDishes pronResp allergResp ds).length = ds.length ∧
    (enrichDishes pronResp allergResp ds).map
        (fun d => (d.original_name, d.simple_description, d.nutrition, d.page)) =
      ds.map (fun d => (d.original_name, d.simple_description, d.nutrition, d.page)) := by
  rw [enrichDishes_eq_map]
  refine ⟨List.length_map _ _, ?_⟩
  rw [List.map_map]
  rfl

/-- Witness for C10 on a one-record list. -/
theorem c10_enrichment_frame_witness :
    (enrichDishes .failure .failure [sampleRecord]).length = [sampleRecord].length ∧
    (enrichDishes .failure .failure [sampleRecord]).map
        (fun d => (d.original_name, d.simple_description, d.nutrition, d.page)) =
      [sampleRecord].map
        (fun d => (d.original_name, d.simple_description, d.nutrition, d.page)) :=
  c10_enrichment_frame .failure .failure [sampleRecord] (List.cons_ne_nil _ _)

/-- C7: a transport-level extraction failure makes its image contribute
exactly zero records while the loop continues with the remaining images
at their original page numbers; when any records were accumulated the
pipeline succeeds, and when none were the pipeline terminates with the
no-dishes error (HTTP 422) with zero enrichment calls issued. -/
theorem c7_extraction_isolation (env : Env) (h1 : 1 ≤ env.images.length)
    (h2 : env.images.length ≤ 5)
    (hv : validateMenuImages (env.images.map (fun i => i.validation)) = true) :
    (∀ pre post, env.images.map (fun i => i.extraction) = pre ++ .failure :: post →
      extractLoop (env.images.map (fun i => i.extraction)) =
        extractLoopFrom 0 pre ++ extractLoopFrom (pre.length + 1) post)
  ∧ ((extractLoop (env.images.map (fun i => i.extraction))).length ≠ 0 →
      ∃ ds, (analyzeMenu env).1 = .ok ds)
  ∧ ((extractLoop (env.images.map (fun i => i.extraction))).length = 0 →
      (analyzeMenu env).1 = .noDishes ∧ statusOf (analyzeMenu env).1 = 422 ∧
      (analyzeMenu env).2.enrichmentCalls = 0) := by
  have h0 : env.images.length ≠ 0 := by omega
  have h5 : ¬env.images.length > 5 := by omega
  refine ⟨?_, ?_, ?_⟩
  · intro pre post heq
    rw [extractLoop, heq, extractLoopFrom_append, extractLoopFrom_cons]
    simp [baseDishesOf_failure]
  · intro hd
    by_cases hs : env.skip_enrichment = true
    · rw [analyzeMenu_skip env h0 h5 hv hd hs]
      exact ⟨_, rfl⟩
    · rw [analyzeMenu_enrich env h0 h5 hv hd (by simpa using hs)]
      exact ⟨_, rfl⟩
  · intro hd
    rw [analyzeMenu_noDishes env h0 h5 hv hd]
    exact ⟨rfl, rfl, rfl⟩

/-- Witness for C7: the failing first image contributes nothing while the
second image keeps page 2; a batch whose only image fails ends in the
no-dishes error. -/
theorem c7_extraction_isolation_witness :
    extractLoop (envC7.images.map (fun i => i.extraction)) =
      extractLoopFrom 0 [] ++ extractLoopFrom 1 [.reply (some (.jarr [ramenJson]))] ∧
    (analyzeMenu envAllFail).1 = .noDishes ∧
    statusOf (analyzeMenu envAllFail).1 = 422 := by
  have h7 := c7_extraction_isolation envC7 (by decide) (by decide) (by decide)
  have hf := c7_extraction_isolation envAllFail (by decide) (by decide) (by decide)
  have hz := hf.2.2 (by decide)
  exact ⟨h7.1 [] [.reply (some (.jarr [ramenJson]))] rfl, hz.1, hz.2.1⟩

/-- C2 counterexample: the placeholder returned for an unparsable reply
sets nutrition fields calories, sugar, fat and greens — it has no
unhealthy_fat field at all, contradicting the claimed
calories/sugar/unhealthy_fat = Medium/Low/Medium default. -/
theorem c2_counterexample :
    extractDishesFromImage (.reply none) = .ok [menuItemPlaceholder] ∧
    menuItemPlaceholder.original_name = "Menu Item" ∧
    jprop menuItemPlaceholder.nutrition "unhealthy_fat" = none ∧
    jprop menuItemPlaceholder.nutrition "fat" = some (.jstr "Medium") ∧
    jprop menuItemPlaceholder.nutrition "greens" = some (.jstr "Low") :=
  ⟨rfl, rfl, rfl, rfl, rfl⟩

/-- C2 (amended): for every image whose reply is unparsable (parse failure
or top-level value not an array), extraction returns exactly one
placeholder record with original_name "Menu Item", the generic
unavailability description, and nutrition defaulted to calories Medium,
sugar Low, fat Medium, greens Low (the third field is named fat, not
unhealthy_fat, and an extra greens field is present); in the pipeline
that image contributes exactly that one record — not zero — and the
pipeline does not fail. -/
theorem c2_placeholder_fallback (p : Option Jval) (hp : unparsableTopLevel p = true) :
    extractDishesFromImage (.reply p) = .ok [menuItemPlaceholder]
  ∧ menuItemPlaceholder.original_name = "Menu Item"
  ∧ menuItemPlaceholder.simple_description =
      "Unable to extract dish details from this image section"
  ∧ menuItemPlaceholder.nutrition =
      .jobj [("calories", .jstr "Medium"), ("sugar", .jstr "Low"),
             ("fat", .jstr "Medium"), ("greens", .jstr "Low")]
  ∧ (∀ pre post : List GatewayOutcome,
      (extractLoopFrom 0 (pre ++ .reply p :: post)).filter
          (fun d => d.page == pre.length + 1) =
        [mkRecord menuItemPlaceholder (pre.length + 1)])
  ∧ (∀ env : Env, 1 ≤ env.images.length → env.images.length ≤ 5 →
      validateMenuImages (env.images.map (fun i => i.validation)) = true →
      GatewayOutcome.reply p ∈ env.images.map (fun i => i.extraction) →
      ∃ ds, (analyzeMenu env).1 = .ok ds ∧ ds ≠ []) := by
  have he : extractDishesFromImage (.reply p) = .ok [menuItemPlaceholder] := by
    cases p with
    | none => rfl
    | some v =>
      cases v with
      | jarr xs => simp [unparsableTopLevel] at hp
      | jnull => rfl
      | jbool b => rfl
      | jnum n => rfl
      | jstr s => rfl
      | jobj fs => rfl
  have hbase : baseDishesOf (.reply p) = [menuItemPlaceholder] := by
    unfold baseDishesOf
    rw [he]
  refine ⟨he, rfl, rfl, rfl, ?_, ?_⟩
  · intro pre post
    have hfp := extractLoopFrom_filter_page 0 pre post (.reply p)
    rw [hbase] at hfp
    simpa using hfp
  · intro env henv1 henv2 hval hmem
    have h0 : env.images.length ≠ 0 := by omega
    have h5 : ¬env.images.length > 5 := by omega
    have hne : extractLoop (env.images.map (fun i => i.extraction)) ≠ [] := by
      refine extractLoopFrom_ne_nil_of_contrib 0 _ (.reply p) hmem ?_
      rw [hbase]
      exact List.cons_ne_nil _ _
    have hlen : (extractLoop (env.images.map (fun i => i.extraction))).length ≠ 0 := by
      intro hc
      exact hne (List.length_eq_zero.mp hc)
    by_cases hs : env.skip_enrichment = true
    · rw [analyzeMenu_skip env h0 h5 hval hlen hs]
      exact ⟨_, rfl, hne⟩
    · rw [analyzeMenu_enrich env h0 h5 hval hlen (by simpa using hs)]
      refine ⟨_, rfl, ?_⟩
      rw [enrichDishes_eq_map]
      intro hc
      exact hne (List.map_eq_nil_iff.mp hc)

/-- Witness for C2 at a parseable-but-not-array reply and a concrete
one-image batch. -/
theorem c2_placeholder_fallback_witness :
    extractDishesFromImage (.reply (some (.jstr "no dishes here"))) =
      .ok [menuItemPlaceholder] ∧
    (extractLoopFrom 0 ([] ++ .reply (some (.jstr "no dishes here")) :: [])).filter
        (fun d => d.page == List.length ([] : List GatewayOutcome) + 1) =
      [mkRecord menuItemPlaceholder (List.length ([] : List GatewayOutcome) + 1)] ∧
    statusOf (analyzeMenu envC2).1 = 200 := by
  have h := c2_placeholder_fallback (some (.jstr "no dishes here")) (by decide)
  refine ⟨h.1, h.2.2.2.2.1 [] [], ?_⟩
  obtain ⟨ds, hds, _⟩ := h.2.2.2.2.2 envC2 (by decide) (by decide) (by decide)
    (List.mem_singleton.mpr rfl)
  rw [hds]
  rfl

/-- C3 counterexample: with skip_enrichment the code returns the base
records without assigning pronunciation or allergens at all — the fields
are absent (`none`), not pronunciation = original_name and
allergens = the empty string. -/
theorem c3_counterexample :
    envC3.skip_enrichment = true ∧
    (analyzeMenu envC3).1 = .ok
      [⟨"Tonkotsu Ramen",
        "This is a soup. Rich pork broth with noodles. Hearty and filling. Top ingredients: pork, noodles, egg",
        .jobj [("calories", .jstr "High"), ("sugar", .jstr "Low"),
               ("unhealthy_fat", .jstr "High")],
        1, none, none⟩] ∧
    ¬(∀ d ∈ okDishes (analyzeMenu envC3).1,
        d.pronunciation = some d.original_name ∧ d.allergens = some "") := by
  refine ⟨rfl, rfl, ?_⟩
  intro h
  have hm : (⟨"Tonkotsu Ramen",
      "This is a soup. Rich pork broth with noodles. Hearty and filling. Top ingredients: pork, noodles, egg",
      .jobj [("calories", .jstr "High"), ("sugar", .jstr "Low"),
             ("unhealthy_fat", .jstr "High")],
      1, none, none⟩ : DishRecord) ∈ okDishes (analyzeMenu envC3).1 :=
    List.mem_singleton_self _
  exact Option.noConfusion (h _ hm).1

/-- C3 (amended): skip_enrichment on a batch that extracts dishes returns
exactly the base extraction records, in which the pronunciation and
allergens fields are absent (left `none`; the serialized response omits
them, and defaulting is left to the client), and no enrichment Inference
Gateway calls are issued. -/
theorem c3_skip_enrichment (env : Env) (h1 : 1 ≤ env.images.length)
    (h2 : env.images.length ≤ 5)
    (hv : validateMenuImages (env.images.map (fun i => i.validation)) = true)
    (hd : (extractLoop (env.images.map (fun i => i.extraction))).length ≠ 0)
    (hs : env.skip_enrichment = true) :
    (analyzeMenu env).1 = .ok (extractLoop (env.images.map (fun i => i.extraction))) ∧
    (∀ d ∈ okDishes (analyzeMenu env).1, d.pronunciation = none ∧ d.allergens = none) ∧
    (analyzeMenu env).2.enrichmentCalls = 0 := by
  have h0 : env.images.length ≠ 0 := by omega
  have h5 : ¬env.images.length > 5 := by omega
  have he := analyzeMenu_skip env h0 h5 hv hd hs
  refine ⟨by rw [he], ?_, by rw [he]⟩
  intro d hd'
  rw [he] at hd'
  exact fields_none_mem_extractLoopFrom 0 _ d hd'

/-- Witness for C3 at a concrete one-image skip-enrichment batch. -/
theorem c3_skip_enrichment_witness :
    (analyzeMenu envC3).1 = .ok (extractLoop (envC3.images.map (fun i => i.extraction))) ∧
    (analyzeMenu envC3).2.enrichmentCalls = 0 := by
  have h := c3_skip_enrichment envC3 (by decide) (by decide) (by decide) (by decide) rfl
  exact ⟨h.1, h.2.2⟩

/-- C1 counterexample: a batch of one image whose reply parses to an array
with an element carrying an empty original_name, an empty
simple_description and an empty nutrition object yields a successful
result containing that record — the filter of the code checks only types,
not non-emptiness or the three-level nutrition shape. -/
theorem c1_counterexample :
    1 ≤ envC1.images.length ∧ envC1.images.length ≤ 5 ∧
    envC1.images.map (fun i => i.extraction) =
      [.reply (some (.jarr [emptyNameDishJson]))] ∧
    (analyzeMenu envC1).1 = .ok [⟨"", "", .jobj [], 1, none, none⟩] ∧
    ¬(∀ d ∈ okDishes (analyzeMenu envC1).1,
        d.original_name ≠ "" ∧ d.simple_description ≠ "" ∧
        specNutritionWellFormed d.nutrition = true) := by
  refine ⟨by decide, by decide, rfl, rfl, ?_⟩
  intro h
  have hm : (⟨"", "", .jobj [], 1, none, none⟩ : DishRecord)
      ∈ okDishes (analyzeMenu envC1).1 := List.mem_singleton_self _
  exact (h _ hm).1 rfl

/-- C1 (amended): for every accepted batch (1–5 images, at least one of
which yields a parseable dish list), every DishRecord in a successful
result carries original_name and simple_description of string type
(possibly empty) and a nutrition value that is a truthy JSON object or
array; the code does not enforce non-empty names or descriptions, nor
that nutrition has exactly the three fields calories, sugar,
unhealthy_fat with values in {High, Medium, Low}. -/
theorem c1_record_shape (env : Env) (h1 : 1 ≤ env.images.length)
    (h2 : env.images.length ≤ 5)
    (_h3 : ∃ i ∈ env.images, ∃ xs, i.extraction = .reply (some (.jarr xs))) :
    ∀ d ∈ okDishes (analyzeMenu env).1,
      (truthy d.nutrition && isObjectType d.nutrition) = true := by
  intro d hd
  have h0 : env.images.length ≠ 0 := by omega
  have h5 : ¬env.images.length > 5 := by omega
  by_cases hv : validateMenuImages (env.images.map (fun i => i.validation)) = true
  · by_cases hdd : (extractLoop (env.images.map (fun i => i.extraction))).length = 0
    · rw [analyzeMenu_noDishes env h0 h5 hv hdd] at hd
      simp [okDishes] at hd
    · by_cases hs : env.skip_enrichment = true
      · rw [analyzeMenu_skip env h0 h5 hv hdd hs] at hd
        exact nutrition_ok_extractLoopFrom 0 _ d hd
      · rw [analyzeMenu_enrich env h0 h5 hv hdd (by simpa using hs)] at hd
        have hd2 : d ∈ enrichDishes env.pronunciationResp env.allergensResp
            (extractLoop (env.images.map (fun i => i.extraction))) := hd
        rw [enrichDishes_eq_map] at hd2
        rcases List.mem_map.mp hd2 with ⟨x, hx, rfl⟩
        rw [mergeEnrichment_nutrition]
        exact nutrition_ok_extractLoopFrom 0 _ x hx
  · rw [analyzeMenu_notMenu env h0 h5 (by simpa using hv)] at hd
    simp [okDishes] at hd

/-- Witness for C1 at the concrete degenerate batch: the record that the
pipeline returns indeed has an object-typed nutrition value. -/
theorem c1_record_shape_witness :
    (truthy (⟨"", "", Jval.jobj [], 1, none, none⟩ : DishRecord).nutrition &&
      isObjectType (⟨"", "", Jval.jobj [], 1, none, none⟩ : DishRecord).nutrition) = true :=
  c1_record_shape envC1 (by decide) (by decide)
    ⟨⟨.reply (some "YES"), .reply (some (.jarr [emptyNameDishJson]))⟩,
     List.mem_singleton_self _, [emptyNameDishJson], rfl⟩
    ⟨"", "", .jobj [], 1, none, none⟩ (List.mem_singleton_self _)

theorem objGet_identityMap (names : List String) (n : String) :
    objGet (identityMap names) n =
      if n ∈ names.map (fun s => s) then some n else none :=
  objGet_foldl_insert (fun s => s) (fun s => s) names [] n

theorem objGet_pronFill (m : Jval) (names : List String) (n : String) :
    objGet (pronFill m names) n =
      if n ∈ names.map (fun s => s) then
        some (match jprop m n with
          | some w => if truthy w then jsToString w else n
          | none => n)
      else none :=
  objGet_foldl_insert (fun s => s)
    (fun x => match jprop m x with
      | some w => if truthy w then jsToString w else x
      | none => x) names [] n

theorem objGet_allergFill (m : Jval) (l : List (String × String)) (n : String) :
    objGet (allergFill m l) n =
      if n ∈ l.map (fun it => it.1) then
        some (jsTrim (match jprop m n with
          | some w => if truthy w then jsToString w else ""
          | none => ""))
      else none :=
  objGet_foldl_insert (fun (it : String × String) => it.1)
    (fun t => jsTrim (match jprop m t with
      | some w => if truthy w then jsToString w else ""
      | none => "")) l [] n

theorem getPron_reply_not_null (names : List String) (parsed : Option Jval)
    (h : parsed.getD (.jobj []) ≠ .jnull) :
    getPronunciationsForNames names (.reply parsed) =
      pronFill (parsed.getD (.jobj [])) names := by
  cases hmz : parsed.getD (.jobj []) with
  | jnull => exact absurd hmz h
  | jbool b => simp only [getPronunciationsForNames]; rw [hmz]
  | jnum i => simp only [getPronunciationsForNames]; rw [hmz]
  | jstr s => simp only [getPronunciationsForNames]; rw [hmz]
  | jarr xs => simp only [getPronunciationsForNames]; rw [hmz]
  | jobj fs => simp only [getPronunciationsForNames]; rw [hmz]

theorem getAllerg_failure (items : List (String × String)) :
    getAllergensForItems items .failure = [] := by
  show (if (normalizedItems items).length = 0 then ([] : List (String × String)) else []) = []
  exact ite_self []

theorem getAllerg_reply_not_null (items : List (String × String)) (parsed : Option Jval)
    (hlen : (normalizedItems items).length ≠ 0)
    (h : parsed.getD (.jobj []) ≠ .jnull) :
    getAllergensForItems items (.reply parsed) =
      allergFill (parsed.getD (.jobj [])) (normalizedItems items) := by
  cases hmz : parsed.getD (.jobj []) with
  | jnull => exact absurd hmz h
  | jbool b => simp only [getAllergensForItems, if_neg hlen]; rw [hmz]
  | jnum i => simp only [getAllergensForItems, if_neg hlen]; rw [hmz]
  | jstr s => simp only [getAllergensForItems, if_neg hlen]; rw [hmz]
  | jarr xs => simp only [getAllergensForItems, if_neg hlen]; rw [hmz]
  | jobj fs => simp only [getAllergensForItems, if_neg hlen]; rw [hmz]

theorem mem_normalizedItems (items : List (String × String)) (it : String × String)
    (hit : it ∈ items) (hname : jsTrim it.1 ≠ "") :
    jsTrim it.1 ∈ (normalizedItems items).map (fun q => q.1) := by
  refine List.mem_map.mpr ⟨(jsTrim it.1, jsTrim it.2), ?_, rfl⟩
  refine List.mem_filter.mpr ⟨?_, by simpa using hname⟩
  exact List.mem_map.mpr ⟨it, hit, rfl⟩

/-- C5 counterexample: when the allergens call fails at the transport
level, `getAllergensForItems` returns the empty map — the requested name
"A" is not present as a key, so the allergen map is not total over its
input name set in that failure mode. -/
theorem c5_counterexample :
    getAllergensForItems [("A", "d")] .failure = [] ∧
    objGet (getAllergensForItems [("A", "d")] .failure) "A" = none := ⟨rfl, rfl⟩

/-- C5 (amended): the pronunciation map is total over the requested names
in every failure mode — on transport failure and on an unparsable reply
every requested name maps to itself (identity fallback) — and the
allergen map is total over the trimmed non-empty requested names whenever
a reply is received whose parsed value is not JSON null, with the
empty-string fallback on an unparsable reply; but on a transport failure
(or a reply parsing to null, where property access throws into the same
catch) the allergens helper returns an empty map with no keys at all.
Map values are strings by construction. -/
theorem c5_map_totality (names : List String) (resp : GatewayOutcome)
    (items : List (String × String)) (n : String) (hn : n ∈ names)
    (it : String × String) (hit : it ∈ items) (hname : jsTrim it.1 ≠ "") :
    (∃ v, objGet (getPronunciationsForNames names resp) n = some v) ∧
    (resp = .failure → objGet (getPronunciationsForNames names resp) n = some n) ∧
    objGet (getPronunciationsForNames names (.reply none)) n = some n ∧
    (∀ parsed : Option Jval, parsed.getD (.jobj []) ≠ .jnull →
      ∃ v, objGet (getAllergensForItems items (.reply parsed)) (jsTrim it.1) = some v) ∧
    objGet (getAllergensForItems items (.reply none)) (jsTrim it.1) = some "" ∧
    getAllergensForItems items .failure = [] ∧
    getAllergensForItems items (.reply (some .jnull)) = [] := by
  have hn' : n ∈ names.map (fun s => s) := by simpa using hn
  have hidn : objGet (identityMap names) n = some n := by
    rw [objGet_identityMap, if_pos hn']
  have hmem : jsTrim it.1 ∈ (normalizedItems items).map (fun q => q.1) :=
    mem_normalizedItems items it hit hname
  have hlen : (normalizedItems items).length ≠ 0 := by
    intro hc
    rw [List.length_eq_zero] at hc
    rw [hc] at hmem
    simp at hmem
  refine ⟨?_, ?_, ?_, ?_, ?_, getAllerg_failure items, ?_⟩
  · cases resp with
    | failure => exact ⟨n, hidn⟩
    | reply parsed =>
      by_cases hm : parsed.getD (.jobj []) = .jnull
      · have he : getPronunciationsForNames names (.reply parsed) = identityMap names := by
          simp only [getPronunciationsForNames]
          rw [hm]
        rw [he]
        exact ⟨n, hidn⟩
      · rw [getPron_reply_not_null names parsed hm, objGet_pronFill, if_pos hn']
        exact ⟨_, rfl⟩
  · intro h
    subst h
    exact hidn
  · have hnn : (none : Option Jval).getD (.jobj []) ≠ .jnull := by
      intro hc
      exact Jval.noConfusion hc
    rw [getPron_reply_not_null names none hnn, objGet_pronFill, if_pos hn']
    rfl
  · intro parsed hm
    rw [getAllerg_reply_not_null items parsed hlen hm, objGet_allergFill, if_pos hmem]
    exact ⟨_, rfl⟩
  · have hnn : (none : Option Jval).getD (.jobj []) ≠ .jnull := by
      intro hc
      exact Jval.noConfusion hc
    rw [getAllerg_reply_not_null items none hlen hnn, objGet_allergFill, if_pos hmem]
    rfl
  · show (if (normalizedItems items).length = 0
        then ([] : List (String × String)) else []) = []
    exact ite_self []

/-- Witness for C5 at the two-name set of the spec example. -/
theorem c5_map_totality_witness :
    objGet (getPronunciationsForNames ["A", "B"] .failure) "A" = some "A" ∧
    objGet (getAllergensForItems [("A", "dA"), ("B", "dB")] (.reply none)) "A" = some "" ∧
    getAllergensForItems [("A", "dA"), ("B", "dB")] .failure = [] := by
  have h := c5_map_totality ["A", "B"] .failure [("A", "dA"), ("B", "dB")]
    "A" (by decide) ("A", "dA") (by decide) (by decide)
  exact ⟨h.2.1 rfl, h.2.2.2.2.1, h.2.2.2.2.2.1⟩

/-- C4 counterexample: with two records sharing the name "A", the
pronunciation request carries the deduplicated list ["A"] but the
allergens request carries both (name, description) pairs — the full
record list with duplicates, not the deduplicated name set. -/
theorem c4_counterexample :
    pronunciationRequestNames dupNameDishes = ["A"] ∧
    allergensRequestItems dupNameDishes = [("A", "d1"), ("A", "d2")] ∧
    ¬((allergensRequestItems dupNameDishes).map (fun p => p.1)).Nodup := by
  refine ⟨rfl, rfl, ?_⟩
  intro h
  exact (by decide : ¬(["A", "A"] : List String).Nodup) h

/-- C4 (amended): the pronunciation request is issued over the
order-preserving deduplicated set of the non-empty original_name values
(duplicate-free, containing exactly those names), while the allergens
request is issued over the full record list as one (original_name,
simple_description) pair per record, duplicates included. -/
theorem c4_request_shapes (ds : List DishRecord) :
    (pronunciationRequestNames ds).Nodup ∧
    (∀ n, n ∈ pronunciationRequestNames ds ↔
      (n ≠ "" ∧ n ∈ ds.map (fun d => d.original_name))) ∧
    allergensRequestItems ds =
      ds.map (fun d => (d.original_name, d.simple_description)) ∧
    (allergensRequestItems ds).length = ds.length :=
  ⟨pronunciationRequestNames_nodup ds, mem_pronunciationRequestNames ds, rfl,
   by simp [allergensRequestItems]⟩

/-- Witness for C4 on the duplicated-name fixture. -/
theorem c4_request_shapes_witness :
    (pronunciationRequestNames dupNameDishes).Nodup ∧
    (allergensRequestItems dupNameDishes).length = dupNameDishes.length :=
  ⟨(c4_request_shapes dupNameDishes).1, (c4_request_shapes dupNameDishes).2.2.2⟩

/-- C9: every record carries a 1-based page within the batch size assigned
at extraction; the enrichment stage leaves the page sequence (and the
record count and order) exactly as extraction produced it; result pages
are non-decreasing (page order, then discovery order within a page); and
records sharing an original_name — in particular duplicates across pages,
which stay separate records — receive identical enriched pronunciation
and allergen values, since enrichment is keyed by name. -/
theorem c9_page_invariants (env : Env) (h1 : 1 ≤ env.images.length)
    (h2 : env.images.length ≤ 5)
    (hv : validateMenuImages (env.images.map (fun i => i.validation)) = true)
    (hd : (extractLoop (env.images.map (fun i => i.extraction))).length ≠ 0)
    (hs : env.skip_enrichment = false) :
    (okDishes (analyzeMenu env).1).map (fun d => d.page) =
      (extractLoop (env.images.map (fun i => i.extraction))).map (fun d => d.page) ∧
    (okDishes (analyzeMenu env).1).length =
      (extractLoop (env.images.map (fun i => i.extraction))).length ∧
    (∀ d ∈ okDishes (analyzeMenu env).1, 1 ≤ d.page ∧ d.page ≤ env.images.length) ∧
    (okDishes (analyzeMenu env).1).Pairwise (fun a b => a.page ≤ b.page) ∧
    (∀ d1 ∈ okDishes (analyzeMenu env).1, ∀ d2 ∈ okDishes (analyzeMenu env).1,
      d1.original_name = d2.original_name →
      d1.pronunciation = d2.pronunciation ∧ d1.allergens = d2.allergens) := by
  have h0 : env.images.length ≠ 0 := by omega
  have h5 : ¬env.images.length > 5 := by omega
  have he := analyzeMenu_enrich env h0 h5 hv hd hs
  have hok : okDishes (analyzeMenu env).1 =
      enrichDishes env.pronunciationResp env.allergensResp
        (extractLoop (env.images.map (fun i => i.extraction))) := by
    rw [he]
    rfl
  rw [hok, enrichDishes_eq_map]
  refine ⟨?_, List.length_map _ _, ?_, ?_, ?_⟩
  · rw [List.map_map]
    rfl
  · intro d hd'
    rcases List.mem_map.mp hd' with ⟨x, hx, rfl⟩
    have hx' : x ∈ extractLoopFrom 0 (env.images.map (fun i => i.extraction)) := hx
    have hb := page_mem_extractLoopFrom 0 (env.images.map (fun i => i.extraction)) x hx'
    have hlen : (env.images.map (fun i => i.extraction)).length = env.images.length :=
      List.length_map _ _
    simp only [mergeEnrichment_page]
    omega
  · exact List.Pairwise.map _ (fun a b h => h) (pairwise_page_extractLoopFrom 0 _)
  · intro d1 hd1 d2 hd2 hname
    rcases List.mem_map.mp hd1 with ⟨x1, hx1, rfl⟩
    rcases List.mem_map.mp hd2 with ⟨x2, hx2, rfl⟩
    rw [mergeEnrichment_original_name, mergeEnrichment_original_name] at hname
    constructor
    · rw [mergeEnrichment_pronunciation, mergeEnrichment_pronunciation, hname]
    · rw [mergeEnrichment_allergens, mergeEnrichment_allergens, hname]

/-- Witness for C9 at the two-page duplicate-name batch. -/
theorem c9_page_invariants_witness :
    (okDishes (analyzeMenu envC9).1).map (fun d => d.page) =
      (extractLoop (envC9.images.map (fun i => i.extraction))).map (fun d => d.page) ∧
    (okDishes (analyzeMenu envC9).1).length =
      (extractLoop (envC9.images.map (fun i => i.extraction))).length := by
  have h := c9_page_invariants envC9 (by decide) (by decide) (by decide) (by decide) rfl
  exact ⟨h.1, h.2.1⟩
